import Mathlib

/-!
Verification of the SmolSQLAgents entity-recognition / business-context /
SQL-validation core against its natural-language specification.

Strings from the Python source are modelled as `List Char` (`String.data`),
so that all scanning, case-mapping, splitting and counting operations are
executable and kernel-reducible.  Python's ASCII `str.upper`/`str.lower`
agree with `Char.toUpper`/`Char.toLower` on the ASCII inputs the claims
exercise.  Floats are modelled as `ℚ`; Python's `round(x, 3)` is modelled
as `⌊x * 1000 + 1/2⌋ / 1000` (half-up instead of half-to-even — the claims
under verification never distinguish the two).
-/

/-- Characters treated as whitespace by Python's `str.strip()` / `str.split()`
(ASCII subset, which covers all inputs appearing in the claims). -/
def isSpaceChar (c : Char) : Bool :=
  c == ' ' || c == '\t' || c == '\n' || c == '\r' || c == '\x0b' || c == '\x0c'

/-- `String.data` of a literal: bridge from readable literals to the
`List Char` representation used throughout. -/
def strL (s : String) : List Char := s.data

/-- Python `str.lower()` (ASCII). -/
def lowerL (cs : List Char) : List Char := cs.map Char.toLower

/-- Python `str.upper()` (ASCII). -/
def upperL (cs : List Char) : List Char := cs.map Char.toUpper

/-- Python `str.strip()`: drop leading and trailing whitespace. -/
def stripL (cs : List Char) : List Char :=
  ((cs.dropWhile isSpaceChar).reverse.dropWhile isSpaceChar).reverse

/-- Python's substring test `needle in hay`. -/
def infixB (needle : List Char) : List Char → Bool
  | [] => needle.isEmpty
  | c :: rest => needle.isPrefixOf (c :: rest) || infixB needle rest

/-- Fuelled worker for `countOccs`. -/
def countOccsGo (needle : List Char) : Nat → List Char → Nat
  | 0, _ => 0
  | _ + 1, [] => 0
  | fuel + 1, c :: rest =>
    if needle ≠ [] ∧ needle.isPrefixOf (c :: rest) then
      1 + countOccsGo needle fuel (List.drop needle.length (c :: rest))
    else
      countOccsGo needle fuel rest

/-- Python `hay.count(needle)`: non-overlapping left-to-right substring count
(for a non-empty needle).  The fuel `hay.length + 1` strictly dominates the
number of recursive steps, so the worker never exhausts it. -/
def countOccs (needle hay : List Char) : Nat :=
  countOccsGo needle (hay.length + 1) hay

/-- Fuelled worker for `splitOnStr`. -/
def splitOnStrGo (sep : List Char) : Nat → List Char → List Char → List (List Char)
  | 0, acc, rest => [acc.reverse ++ rest]
  | _ + 1, acc, [] => [acc.reverse]
  | fuel + 1, acc, c :: rest =>
    if sep ≠ [] ∧ sep.isPrefixOf (c :: rest) then
      acc.reverse :: splitOnStrGo sep fuel [] (List.drop sep.length (c :: rest))
    else
      splitOnStrGo sep fuel (c :: acc) rest

/-- Python `hay.split(sep)` for a non-empty separator string. -/
def splitOnStr (sep cs : List Char) : List (List Char) :=
  splitOnStrGo sep (cs.length + 1) [] cs

/-- Python `str.split()` (split on whitespace runs, dropping empty pieces). -/
def wordsL : List Char → List Char → List (List Char)
  | acc, [] => if acc.isEmpty then [] else [acc.reverse]
  | acc, c :: rest =>
    if isSpaceChar c then
      if acc.isEmpty then wordsL [] rest else acc.reverse :: wordsL [] rest
    else
      wordsL (c :: acc) rest

/-- Python `str.split()` entry point. -/
def pySplitWs (cs : List Char) : List (List Char) := wordsL [] cs

/-!
## Embedding of `src/validation/tsql_validator.py` (`TSQLValidator`)
-/

/-- Result record of the syntax pass (`{"valid", "errors", "warnings"}`). -/
structure ParseCheckResult where
  valid : Bool
  errors : List (List Char)
  warnings : List (List Char)
  deriving Repr, DecidableEq

/-- `TSQLValidator._validate_statement`: statement-level checks.  The Python
code strips the statement text, then (1) rejects an empty statement,
(2) rejects when NEITHER `SELECT` nor `FROM` occurs in the upper-cased text
(`any(keyword in text.upper() for keyword in ["SELECT", "FROM"])`),
(3) rejects unbalanced parentheses, and (4) records a warning (not an error)
for a trailing semicolon. -/
def validateStatementText (s : List Char) : ParseCheckResult :=
  let t := stripL s
  if t.isEmpty then
    { valid := false, errors := [strL "Empty statement"], warnings := [] }
  else
    let kwMissing : Bool :=
      !(infixB (strL "SELECT") (upperL t) || infixB (strL "FROM") (upperL t))
    let parensBad : Bool := t.count '(' != t.count ')'
    { valid := !kwMissing && !parensBad
      errors :=
        (if kwMissing then [strL "Missing required SELECT and FROM clauses"] else []) ++
        (if parensBad then [strL "Unbalanced parentheses"] else [])
      warnings :=
        if t.getLast? == some ';' then [strL "Semicolon at end of statement"] else [] }

/-- Statement splitter modelling `sqlparse.parse`: the empty input parses to an
empty statement list; otherwise the text is cut after every `;`, each piece
(keeping its semicolon, and any trailing piece) becoming one statement. -/
def splitStmtsGo : List Char → List Char → List (List Char)
  | acc, [] => if acc.isEmpty then [] else [acc.reverse]
  | acc, c :: rest =>
    if c == ';' then (acc.reverse ++ [';']) :: splitStmtsGo [] rest
    else splitStmtsGo (c :: acc) rest

/-- Entry point of the statement splitter. -/
def splitStmts (q : List Char) : List (List Char) := splitStmtsGo [] q

/-- `TSQLValidator.validate_syntax`: parse into statements; an empty statement
list yields `valid=false` with error `"Empty query"`; otherwise the
per-statement results are combined (errors appended only for invalid
statements, exactly as in the source; warnings always appended). -/
def validateQueryText (q : List Char) : ParseCheckResult :=
  match splitStmts q with
  | [] => { valid := false, errors := [strL "Empty query"], warnings := [] }
  | stmts =>
    stmts.foldl
      (fun acc s =>
        let r := validateStatementText s
        { valid := acc.valid && r.valid
          errors := if !r.valid then acc.errors ++ r.errors else acc.errors
          warnings := acc.warnings ++ r.warnings })
      { valid := true, errors := [], warnings := [] }

/-- Result record of the security pass
(`{"valid", "risks", "forbidden_operations"}`). -/
structure SecurityResult where
  valid : Bool
  risks : List (List Char)
  forbidden_operations : List (List Char)
  deriving Repr, DecidableEq

/-- The forbidden mutation keywords of `TSQLValidator.__init__`. -/
def forbiddenKeywords : List (List Char) :=
  [strL "DROP", strL "DELETE", strL "UPDATE", strL "INSERT", strL "TRUNCATE", strL "ALTER"]

/-- The injection-risk patterns scanned by `validate_security` (lower case,
exactly as written in the source). -/
def injectionPatterns : List (List Char) :=
  [strL "exec(", strL "execute(", strL "sp_", strL "xp_", strL "openrowset", strL "opendatasource"]

/-- The system-table prefixes scanned by `validate_security` (lower case,
exactly as written in the source). -/
def systemTablePrefixes : List (List Char) :=
  [strL "sys.", strL "information_schema.", strL "master.", strL "tempdb."]

/-- `TSQLValidator.validate_security`.  The query is upper-cased once
(`query_upper`); forbidden keywords are matched against it (marking
`valid=false` and recording the keyword); the injection patterns, the
dynamic-SQL check and the system-table prefixes are matched *as written in
the source*, i.e. their lower-case pattern text is searched inside the
upper-cased query. -/
def validateSecurity (q : List Char) : SecurityResult :=
  let qU := upperL q
  let forbidden := forbiddenKeywords.filter (fun kw => infixB kw qU)
  let injRisks := (injectionPatterns.filter (fun p => infixB p qU)).map
    (fun p => strL "Potential SQL injection risk: " ++ p)
  let dynRisks :=
    if infixB (strL "exec") qU || infixB (strL "execute") qU then
      [strL "Dynamic SQL execution detected"] else []
  let sysRisks := (systemTablePrefixes.filter (fun p => infixB p qU)).map
    (fun p => strL "System table access: " ++ p)
  { valid := forbidden.isEmpty
    risks := injRisks ++ dynRisks ++ sysRisks
    forbidden_operations := forbidden }

/-- One performance issue record (`{"type", "severity", "message"}`). -/
structure PerfIssue where
  type : List Char
  severity : List Char
  message : List Char
  deriving Repr, DecidableEq

/-- `TSQLValidator._check_select_star_usage`: true when `select *` occurs and
some piece after a `select` split starts (once stripped) with `*`. -/
def checkSelectStarUsage (ql : List Char) : Bool :=
  if infixB (strL "select *") ql then
    ((splitOnStr (strL "select") ql).drop 1).any
      (fun part => (['*'] : List Char).isPrefixOf (stripL part))
  else
    false

/-- `TSQLValidator.check_performance_patterns`: the four advisory checks, in
source order, over the lower-cased query; returns a LIST of issue records. -/
def checkPerformancePatterns (q : List Char) : List PerfIssue :=
  let ql := lowerL q
  (if checkSelectStarUsage ql then
    [{ type := strL "performance", severity := strL "warning",
       message := strL "SELECT * usage detected - consider specifying only needed columns" }]
   else []) ++
  (if infixB (strL "from") ql && !infixB (strL "where") ql then
    [{ type := strL "performance", severity := strL "warning",
       message := strL "No WHERE clause detected - consider adding filters for large tables" }]
   else []) ++
  (if 3 < countOccs (strL "select") ql then
    [{ type := strL "performance", severity := strL "info",
       message := strL "Multiple SELECT statements detected - consider using JOINs or subqueries" }]
   else []) ++
  (if infixB (strL "join") ql && !infixB (strL "index") ql then
    [{ type := strL "performance", severity := strL "info",
       message := strL "JOIN detected without index hints - verify proper indexing" }]
   else [])

/-!
## Embedding of `src/validation/query_optimizer.py`
(`QueryOptimizer._calculate_complexity_score`)
-/

/-- `QueryOptimizer._calculate_complexity_score`: weighted case-insensitive
substring counts plus `(query.count('(') - query.count(')')) * 2` — note the
paren term is the SIGNED difference in the source, so the score is an
integer that can go negative. -/
def calculateComplexityScore (q : List Char) : ℤ :=
  let ql := lowerL q
  (countOccs (strL "join") ql : ℤ) * 5 +
  (countOccs (strL "select") ql : ℤ) * 2 +
  (countOccs (strL "where") ql : ℤ) * 3 +
  (countOccs (strL "group by") ql : ℤ) * 4 +
  (countOccs (strL "order by") ql : ℤ) * 3 +
  (countOccs (strL "having") ql : ℤ) * 4 +
  (countOccs (strL "union") ql : ℤ) * 6 +
  (countOccs (strL "subquery") ql : ℤ) * 5 +
  ((q.count '(' : ℤ) - (q.count ')' : ℤ)) * 2

/-!
## Embedding of `src/agents/nl2sql.py` (`NL2SQLAgent`) and the validator
registry of `src/agents/base.py` (`ValidationMixin.validate`)

A registered validator returns whatever the underlying Python function
returns: `validate_syntax` / `validate_security` return dictionaries carrying
a `"valid"` key, `check_performance_patterns` returns a LIST of issue
records, and `ValidationMixin.validate` returns `False` (a bool) when a
validator raises.  `RVal` covers exactly these shapes, recording for a
dictionary whether it carries a `"valid"` and/or an `"issues"` key.
-/

/-- A validator result as seen by `_format_validation_response`. -/
inductive RVal where
  | asBool (b : Bool)
  | asDict (validKey : Option Bool) (issuesKey : Option (List PerfIssue))
  | asList (issues : List PerfIssue)
  deriving Repr, DecidableEq

/-- The helper `get_validation_result(result, key, default=False)` of
`_format_validation_response`, looking up the `"valid"` key. -/
def getValidationResult (r : RVal) (default : Bool) : Bool :=
  match r with
  | .asBool b => b
  | .asDict v _ => v.getD default
  | .asList _ => default

/-- `results["performance"].get("issues", []) if isinstance(..., dict) else []`. -/
def perfIssuesOf (r : RVal) : List PerfIssue :=
  match r with
  | .asDict _ issues => issues.getD []
  | _ => []

/-- The `results` dictionary assembled by `_execute_parallel_validation`
(keys `syntax`, `business`, `security`, `performance`, `execution`). -/
structure VResults where
  syn : RVal
  business : RVal
  security : RVal
  performance : RVal
  execution : RVal
  deriving Repr, DecidableEq

/-- The `validation` block built by `_format_validation_response`. -/
structure FormattedValidation where
  synValid : Bool
  busCompliant : Bool
  secValid : Bool
  perfIssues : List PerfIssue
  deriving Repr, DecidableEq

/-- The `"validation"` value of a response: the non-cached path stores the
formatted block, the cached path stores the RAW results dictionary. -/
inductive ValidationPayload where
  | formatted (v : FormattedValidation)
  | raw (r : VResults)
  deriving Repr, DecidableEq

/-- A response of `generate_sql_optimized`, restricted to the keys the two
formatting paths produce.  `query_execution` and `cached` are `Option`s
because each key is present on one path and absent on the other. -/
structure PipelineResponse where
  success : Bool
  generated_sql : List Char
  validation : ValidationPayload
  query_execution : Option RVal
  cached : Option Bool
  is_valid : Bool
  deriving Repr, DecidableEq

/-- `NL2SQLAgent._format_validation_response`. -/
def formatValidationResponse (sql : List Char) (results : VResults) : PipelineResponse :=
  let v : FormattedValidation :=
    { synValid := getValidationResult results.syn false
      busCompliant := getValidationResult results.business false
      secValid := getValidationResult results.security false
      perfIssues := perfIssuesOf results.performance }
  { success := true
    generated_sql := sql
    validation := .formatted v
    query_execution := some results.execution
    cached := none
    is_valid := v.synValid && v.busCompliant && v.secValid }

/-- The raw results dictionary as a key-value association list: these are the
ONLY keys the cached entry carries (`_execute_parallel_validation` caches the
raw `results` mapping). -/
def resultsDict (r : VResults) : List (List Char × RVal) :=
  [(strL "syntax", r.syn), (strL "business", r.business),
   (strL "security", r.security), (strL "performance", r.performance),
   (strL "execution", r.execution)]

/-- Python truthiness of a validator-result value, used when a dictionary
lookup that happened to succeed is coerced to a boolean. -/
def rvalTruthy (r : RVal) : Bool :=
  match r with
  | .asBool b => b
  | .asDict v i => v.isSome || i.isSome
  | .asList issues => !issues.isEmpty

/-- `NL2SQLAgent._format_response_with_cache`: the `validation` value is the
RAW cached results dictionary, a `cached: True` key is added, there is no
`query_execution` key, and `is_valid` is `cached_results.get("syntax_valid",
False)` — a lookup of a key the raw dictionary does not contain. -/
def formatResponseWithCache (sql : List Char) (cached : VResults) : PipelineResponse :=
  { success := true
    generated_sql := sql
    validation := .raw cached
    query_execution := none
    cached := some true
    is_valid := ((resultsDict cached).lookup (strL "syntax_valid")).elim false rvalTruthy }

/-- The validator outputs gathered by `_execute_parallel_validation`: the
registered `syntax` and `security` validators return their result
dictionaries, the registered `performance` validator returns the issue LIST
of `check_performance_patterns`; the business-compliance and execution
branches involve external collaborators and are taken as parameters. -/
def validationResults (sql : List Char) (businessR execR : RVal) : VResults :=
  { syn := .asDict (some (validateQueryText sql).valid) none
    business := businessR
    security := .asDict (some (validateSecurity sql).valid) none
    performance := .asList (checkPerformancePatterns sql)
    execution := execR }

/-- The cache key of `generate_sql_optimized`
(`f"{generated_sql}:{hash(str(business_context))}"`, lower-cased and
stripped by `_get_cache_key`; the MD5 digest is modelled by the normalized
key text itself, and the context hash by an opaque fingerprint). -/
def cacheKeyOf (sql fp : List Char) : List Char :=
  stripL (lowerL (sql ++ ':' :: fp))

/-- One call of the validation tail of `generate_sql_optimized` (lines
139-149): on a cache hit the cached raw results are fed to
`_format_response_with_cache`; on a miss the validators run, the raw results
are cached, and `_format_validation_response` builds the response.  Returns
the response together with the updated cache. -/
def generateSqlValidate (sql fp : List Char) (businessR execR : RVal)
    (cache : List (List Char × VResults)) :
    PipelineResponse × List (List Char × VResults) :=
  let key := cacheKeyOf sql fp
  match cache.lookup key with
  | some r => (formatResponseWithCache sql r, cache)
  | none =>
    let r := validationResults sql businessR execR
    (formatValidationResponse sql r, (key, r) :: cache)

/-!
## Embedding of `src/agents/base.py` (`CachingMixin._cache_result`) and
`src/agents/entity_recognition.py` (`EntityRecognitionAgent._cache_result`)

Both caches run the same insertion-order eviction: insert, then if the size
exceeds the limit, delete the first 10 keys.  `CachingMixin` takes the limit
from its `cache_size` argument (50 for the NL2SQL agent); the entity
recognition agent hard-codes 100.  A Python dict is insertion-ordered:
updating an existing key keeps its position, a new key is appended.
-/

/-- Python dict insertion (insertion-ordered, update-in-place). -/
def cacheInsert {V : Type} (cache : List (List Char × V)) (k : List Char) (v : V) :
    List (List Char × V) :=
  if k ∈ cache.map Prod.fst then
    cache.map (fun p => if p.1 == k then (k, v) else p)
  else
    cache ++ [(k, v)]

/-- `oldest_keys = list(cache.keys())[:n]; for key in oldest_keys: del cache[key]`. -/
def evictOldest {V : Type} (n : Nat) (cache : List (List Char × V)) :
    List (List Char × V) :=
  ((cache.map Prod.fst).take n).foldl (fun acc k => acc.eraseP (fun p => p.1 == k)) cache

/-- `CachingMixin._cache_result` (and, with `limit := 100`, the entity
recognition agent's `_cache_result`): store the entry, then if the size
exceeds the limit evict the 10 oldest entries. -/
def cacheResult {V : Type} (limit : Nat) (cache : List (List Char × V))
    (k : List Char) (v : V) : List (List Char × V) :=
  let c := cacheInsert cache k v
  if limit < c.length then evictOldest 10 c else c

/-- `EntityRecognitionAgent._cache_result`: the same routine with the
hard-coded limit 100. -/
def entityCacheResult {V : Type} (cache : List (List Char × V)) (k : List Char) (v : V) :
    List (List Char × V) :=
  cacheResult 100 cache k v

/-!
## Embedding of `src/agents/entity_recognition.py`
(`EntityRecognitionAgent.recognize_entities_optimized` and its helpers)
-/

/-- Python `round(x, 3)` (half-up model; see header note). -/
def pyRound3 (x : ℚ) : ℚ := (⌊x * 1000 + 1/2⌋ : ℚ) / 1000

/-- `EntityRecognitionAgent._calculate_purpose_match`: word-overlap ratio
between the lower-cased purpose text and the lower-cased intent
(`len(common_words) / max(len(intent_words), 1)` over word SETS). -/
def purposeMatch (purpose intent : List Char) : ℚ :=
  if purpose.isEmpty || intent.isEmpty then 0
  else
    let pw := (pySplitWs (lowerL purpose)).dedup
    let iw := (pySplitWs (lowerL intent)).dedup
    if pw.isEmpty || iw.isEmpty then 0
    else ((pw.filter (fun w => iw.contains w)).length : ℚ) / (max iw.length 1 : ℚ)

/-- `EntityRecognitionAgent._calculate_name_relevance`: 1.0 when the
lower-cased table name occurs inside the intent, 0.7 when some intent word
contains or is contained in the table name, else 0.0. -/
def nameRelevance (name intent : List Char) : ℚ :=
  if name.isEmpty || intent.isEmpty then 0
  else
    let nl := lowerL name
    let il := lowerL intent
    if infixB nl il then 1
    else if (pySplitWs il).any (fun w => infixB w nl || infixB nl w) then 7/10
    else 0

/-- `EntityRecognitionAgent._get_relevance_recommendation`. -/
def relevanceRecommendation (x : ℚ) : List Char :=
  if 8/10 ≤ x then strL "Highly relevant - strongly recommended"
  else if 6/10 ≤ x then strL "Relevant - good match"
  else if 4/10 ≤ x then strL "Moderately relevant"
  else if 2/10 ≤ x then strL "Low relevance"
  else strL "Not relevant"

/-- One search-result candidate: `content.name`, `content.business_purpose`,
and the semantic-similarity `score` attached by the vector search. -/
structure Candidate where
  name : List Char
  purpose : List Char
  score : ℚ
  deriving Repr, DecidableEq

/-- One analysed entity (the record appended to `entity_analysis`). -/
structure EntityAnalysis where
  table_name : List Char
  business_purpose : List Char
  relevance_score : ℚ
  semFactor : ℚ
  purposeFactor : ℚ
  nameFactor : ℚ
  recommendation : List Char
  deriving Repr, DecidableEq

/-- The per-candidate analysis step of `recognize_entities_optimized` (lines
136-160): `overall = 0.5*semantic + 0.3*purpose_match + 0.2*name_relevance`,
stored rounded to 3 decimals; the recommendation label uses the unrounded
value, as in the source. -/
def mkEntityAnalysis (intent : List Char) (c : Candidate) : EntityAnalysis :=
  let pm := purposeMatch c.purpose intent
  let nr := nameRelevance c.name intent
  let overall := c.score * (1/2) + pm * (3/10) + nr * (1/5)
  { table_name := c.name
    business_purpose := c.purpose
    relevance_score := pyRound3 overall
    semFactor := c.score
    purposeFactor := pm
    nameFactor := nr
    recommendation := relevanceRecommendation overall }

/-- One generated recommendation record. -/
structure EntityRecommendation where
  priority : Nat
  table_name : List Char
  relevance_score : ℚ
  business_purpose : List Char
  recommendation : List Char
  deriving Repr, DecidableEq

/-- The recognition result dictionary. -/
structure RecognitionResult where
  success : Bool
  error : List Char
  applicable_entities : List EntityAnalysis
  recommendations : List EntityRecommendation
  analysis : List Char
  confidence : ℚ
  deriving Repr, DecidableEq

/-- `EntityRecognitionAgent._empty_entity_result`. -/
def emptyEntityResult (msg : List Char) : RecognitionResult :=
  { success := false, error := msg, applicable_entities := [],
    recommendations := [], analysis := [], confidence := 0 }

/-- `EntityRecognitionAgent._generate_analysis_summary`, with the numeric
interpolations (`entity_count`, `avg_score:.2f`) elided from the text — no
claim depends on the analysis string. -/
def analysisSummary (applicable : List EntityAnalysis) (intent : List Char) : List Char :=
  if applicable.isEmpty then
    strL "No highly relevant entities found for: '" ++ intent ++ strL "'"
  else
    strL "Found applicable entities for '" ++ intent ++ strL "'. Top match: '" ++
      (applicable.head?.elim [] (fun e => e.table_name)) ++ strL "'"

/-- The descending stable sort of `entity_analysis.sort(key=..., reverse=True)`. -/
def sortByScoreDesc (l : List EntityAnalysis) : List EntityAnalysis :=
  l.mergeSort (fun a b => decide (b.relevance_score ≤ a.relevance_score))

/-- The ranking path of `recognize_entities_optimized` (lines 86-193, minus
the result cache and the direct-analysis short-circuit, which only bypass
this path): empty/whitespace query fails fast; an empty candidate list gives
the empty result; otherwise the first `2*max_entities` candidates are
analysed, sorted descending by (rounded) relevance, filtered to scores
strictly above 0.3, truncated to `max_entities`, and the confidence is
`min(mean * 1.2, 1.0)` over the kept scores (0.0 when none kept), rounded. -/
def effectiveIntent (userQuery : List Char) (userIntent : Option (List Char)) : List Char :=
  match userIntent with
  | some i => if i.isEmpty then userQuery else i
  | none => userQuery

def recognizeEntitiesCore (userQuery : List Char) (userIntent : Option (List Char))
    (tables : List Candidate) (maxEntities : Nat) : RecognitionResult :=
  if (stripL userQuery).isEmpty then emptyEntityResult (strL "Query cannot be empty")
  else
    let intent := effectiveIntent userQuery userIntent
    if tables.isEmpty then
      emptyEntityResult (strL "No relevant tables found for: " ++ userQuery)
    else
      let analysis := (tables.take (maxEntities * 2)).map (mkEntityAnalysis intent)
      let sorted := sortByScoreDesc analysis
      let applicable :=
        (sorted.filter (fun e => decide ((3 : ℚ)/10 < e.relevance_score))).take maxEntities
      let recs := applicable.enum.map (fun p =>
        { priority := p.1 + 1
          table_name := p.2.table_name
          relevance_score := p.2.relevance_score
          business_purpose := p.2.business_purpose
          recommendation := p.2.recommendation : EntityRecommendation })
      let confidence : ℚ :=
        if applicable.isEmpty then 0
        else
          min (((applicable.map (fun e => e.relevance_score)).sum /
                 (applicable.length : ℚ)) * (6/5)) 1
      { success := true
        error := []
        applicable_entities := applicable
        recommendations := recs
        analysis := analysisSummary applicable intent
        confidence := pyRound3 confidence }

/-!
## Embedding of `src/agents/business.py` (`BusinessContextAgent`)
-/

/-- A loaded business concept (`src/agents/concepts/loader.py`), restricted
to the fields `gather_business_context` reads. -/
structure BusinessConcept where
  name : List Char
  description : List Char
  target : List (List Char)
  instructions : List Char
  required_joins : List (List Char)
  deriving Repr, DecidableEq

/-- Result record of `_validate_required_joins`.  A Python `set` is modelled
as a first-occurrence-ordered duplicate-free list; only membership and
difference are ever used. -/
structure JoinValidationResult where
  valid : Bool
  missing_entities : List (List Char)
  satisfied_joins : List (List Char)
  unsatisfied_joins : List (List Char)
  deriving Repr, DecidableEq

/-- Insertion into the model of a Python `set` (first-occurrence-ordered
duplicate-free list). -/
def setAdd (acc : List (List Char)) (e : List Char) : List (List Char) :=
  if e ∈ acc then acc else acc ++ [e]

/-- The table qualifiers one join string contributes (helper for the
membership characterisation of `requiredEntities`). -/
def reqEntitiesOfJoin (join : List Char) : List (List Char) :=
  let jl := lowerL join
  if '=' ∈ jl then
    (jl.splitOn '=').filterMap (fun part =>
      if '.' ∈ part then some (stripL (part.takeWhile (fun c => c != '.'))) else none)
  else []

/-- The entity-extraction loop of `_validate_required_joins` (lines 209-218):
for each join string whose lower-cased text contains `=`, split on `=` and,
for every part containing a `.`, add the stripped text before the first `.`
to the `required_entities` set. -/
def requiredEntities (joins : List (List Char)) : List (List Char) :=
  joins.foldl
    (fun acc join =>
      let jl := lowerL join
      if '=' ∈ jl then
        (jl.splitOn '=').foldl
          (fun acc2 part =>
            if '.' ∈ part then
              setAdd acc2 (stripL (part.takeWhile (fun c => c != '.')))
            else acc2)
          acc
      else acc)
    []

/-- `BusinessContextAgent._validate_required_joins`. -/
def validateRequiredJoins (entities joins : List (List Char)) : JoinValidationResult :=
  let req := requiredEntities joins
  let missing := req.filter (fun e => decide (e ∉ entities))
  let canSatisfy := req.all (fun e => decide (e ∈ entities))
  { valid := missing.isEmpty
    missing_entities := missing
    satisfied_joins := joins.filter (fun _ => canSatisfy)
    unsatisfied_joins := joins.filter (fun _ => !canSatisfy) }

/-- One `matched_concepts` projection record of `gather_business_context`. -/
structure MatchedConceptView where
  name : List Char
  description : List Char
  target_entities : List (List Char)
  required_joins : List (List Char)
  similarity : ℚ
  deriving Repr, DecidableEq

/-- One `business_instructions` record. -/
structure BusinessInstruction where
  concept : List Char
  instructions : List Char
  similarity : ℚ
  deriving Repr, DecidableEq

/-- One flattened `relevant_examples` record (an example is a
`{query, context}` pair). -/
structure RelevantExample where
  examplePair : List Char × List Char
  similarity : ℚ
  concept_name : List Char
  deriving Repr, DecidableEq

/-- The `entity_coverage` record. -/
structure EntityCoverage where
  total_entities : Nat
  entities_with_concepts : Nat
  deriving Repr, DecidableEq

/-- The business-context response dictionary. -/
structure BusinessContextResult where
  success : Bool
  matched_concepts : List MatchedConceptView
  business_instructions : List BusinessInstruction
  relevant_examples : List RelevantExample
  join_validation : List (List Char × JoinValidationResult)
  entity_coverage : EntityCoverage
  deriving Repr, DecidableEq

/-- `BusinessContextAgent._empty_business_context`. -/
def emptyBusinessContext : BusinessContextResult :=
  { success := true, matched_concepts := [], business_instructions := [],
    relevant_examples := [], join_validation := [],
    entity_coverage := { total_entities := 0, entities_with_concepts := 0 } }

/-- `BusinessContextAgent.gather_business_context`, parameterised over the
collaborator outputs: `concepts` is what `concept_loader.get_concepts_for_entities`
returned, `matched` what `concept_matcher.match_concepts_to_query` returned,
and `examplesOf` what `concept_matcher.find_similar_examples` returns per
concept.  `entities_with_concepts` is `len(set(concept.name for concept, _ in
matched_concepts))` — the number of DISTINCT CONCEPT NAMES (source line 162). -/
def gatherBusinessContext (applicable : List (List Char))
    (concepts : List BusinessConcept) (matched : List (BusinessConcept × ℚ))
    (examplesOf : BusinessConcept → List ((List Char × List Char) × ℚ)) :
    BusinessContextResult :=
  if applicable.isEmpty then emptyBusinessContext
  else if concepts.isEmpty then emptyBusinessContext
  else
    { success := true
      matched_concepts := matched.map (fun p =>
        { name := p.1.name, description := p.1.description,
          target_entities := p.1.target, required_joins := p.1.required_joins,
          similarity := p.2 })
      business_instructions := matched.map (fun p =>
        { concept := p.1.name, instructions := p.1.instructions, similarity := p.2 })
      relevant_examples := matched.flatMap (fun p =>
        (examplesOf p.1).map (fun e =>
          { examplePair := e.1, similarity := e.2, concept_name := p.1.name }))
      join_validation := matched.map (fun p =>
        (p.1.name, validateRequiredJoins applicable p.1.required_joins))
      entity_coverage :=
        { total_entities := applicable.length
          entities_with_concepts := (matched.map (fun p => p.1.name)).dedup.length } }

/-- Modelled from the spec (comparator for the coverage claim): the number of
distinct concept-owning entities among the matched concepts, i.e. the
distinct entity names appearing in the `target` sets of the matched
concepts.  This follows the spec sentence "entities_with_concepts: |distinct
concept-owning entities matched|"; the source computes distinct concept
NAMES instead. -/
def specEntitiesWithConcepts (matched : List (BusinessConcept × ℚ)) : Nat :=
  ((matched.map (fun p => p.1.target)).flatten).dedup.length

/-!
## Remaining definitions used by the claim theorems
-/

/-- `NL2SQLAgent._execute_parallel_validation` followed by
`_format_validation_response` (the non-cached path), parameterised over the
collaborator-dependent business-compliance and execution branch results. -/
def executeParallelValidation (sql : List Char) (businessR execR : RVal) :
    PipelineResponse :=
  formatValidationResponse sql (validationResults sql businessR execR)

/-- The `performance_issues` entry of a response's `validation` block (empty
for a raw cached payload, which carries no such key). -/
def perfIssuesField (resp : PipelineResponse) : List PerfIssue :=
  match resp.validation with
  | .formatted v => v.perfIssues
  | .raw _ => []

/-- Modelled from the spec (comparator for the complexity-score claim): the
claimed formula with `abs(unbalanced_parens) * 2`, i.e. the ABSOLUTE paren
imbalance, where the source uses the signed difference. -/
def specComplexityScoreAbs (q : List Char) : ℤ :=
  let ql := lowerL q
  (countOccs (strL "join") ql : ℤ) * 5 +
  (countOccs (strL "select") ql : ℤ) * 2 +
  (countOccs (strL "where") ql : ℤ) * 3 +
  (countOccs (strL "group by") ql : ℤ) * 4 +
  (countOccs (strL "order by") ql : ℤ) * 3 +
  (countOccs (strL "having") ql : ℤ) * 4 +
  (countOccs (strL "union") ql : ℤ) * 6 +
  (countOccs (strL "subquery") ql : ℤ) * 5 +
  (((q.count '(' : ℤ) - (q.count ')' : ℤ)).natAbs : ℤ) * 2

/-- The ranking properties asserted by the entity-recognition claim, about
the output of `recognizeEntitiesCore`: entities sorted descending by
relevance, every kept score strictly above 0.3, at most `maxEntities` kept,
every kept entity is the analysis of one input candidate under the
documented weighted formula, and the confidence equals `min(mean * 1.2, 1)`
over the kept scores (0 when none kept) and always lies in [0, 1]. -/
def rankingSpec (q : List Char) (ui : Option (List Char))
    (tables : List Candidate) (m : Nat) : Prop :=
  let r := recognizeEntitiesCore q ui tables m
  r.applicable_entities.Pairwise
      (fun a b => b.relevance_score ≤ a.relevance_score) ∧
  (∀ e ∈ r.applicable_entities, (3 : ℚ)/10 < e.relevance_score) ∧
  r.applicable_entities.length ≤ m ∧
  (∀ e ∈ r.applicable_entities, ∃ c ∈ tables,
      e = mkEntityAnalysis (effectiveIntent q ui) c ∧
      e.relevance_score =
        pyRound3 (c.score * (1/2) +
          purposeMatch c.purpose (effectiveIntent q ui) * (3/10) +
          nameRelevance c.name (effectiveIntent q ui) * (1/5))) ∧
  (r.applicable_entities = [] → r.confidence = 0) ∧
  (r.applicable_entities ≠ [] →
    r.confidence =
      pyRound3 (min (((r.applicable_entities.map
          (fun e => e.relevance_score)).sum / (r.applicable_entities.length : ℚ))
          * (6/5)) 1)) ∧
  0 ≤ r.confidence ∧ r.confidence ≤ 1

/-- First concept of the coverage counterexample: targets `customers`. -/
def c8ConceptA : BusinessConcept :=
  { name := strL "high_value_customers", description := strL "High value customers",
    target := [strL "customers"], instructions := strL "Aggregate balances",
    required_joins := [] }

/-- Second concept of the coverage counterexample: also targets `customers`. -/
def c8ConceptB : BusinessConcept :=
  { name := strL "active_customers", description := strL "Active customers",
    target := [strL "customers"], instructions := strL "Filter active",
    required_joins := [] }

/-- The matched-concepts list of the coverage counterexample: two distinct
concepts, both owned by the single entity `customers`. -/
def c8Matched : List (BusinessConcept × ℚ) := [(c8ConceptA, 1), (c8ConceptB, 1)]

/-!
## Claim theorems
-/

/-- Claim C1: for every SQL string and every set of validator results (hence
every business context), `_format_validation_response` sets `is_valid` to
true iff `syntax_valid`, `business_compliant` and `security_valid` are all
true, and the performance branch result never influences `is_valid`. -/
theorem claim_C1 (sql : List Char) (results : VResults) (p : RVal) :
    ((formatValidationResponse sql results).is_valid = true ↔
      (getValidationResult results.syn false = true ∧
       getValidationResult results.business false = true ∧
       getValidationResult results.security false = true)) ∧
    (formatValidationResponse sql { results with performance := p }).is_valid =
      (formatValidationResponse sql results).is_valid := by
  constructor
  · simp [formatValidationResponse, Bool.and_eq_true, and_assoc]
  · rfl

/-- Claim C10: on the non-cached parallel-validation path the
`performance_issues` entry of the validation block is always the empty list
(the registered performance validator returns a LIST of issue records, and
`_format_validation_response` extracts issues only from a dictionary-shaped
result); the second conjunct shows the dropped issues are in general
non-empty, so the emptiness is a genuine loss. -/
theorem claim_C10 (sql : List Char) (businessR execR : RVal) :
    perfIssuesField (executeParallelValidation sql businessR execR) = [] ∧
    checkPerformancePatterns (strL "SELECT * FROM customers") ≠ [] :=
  ⟨rfl, by decide⟩

/-- Claim C5 (code bug): validating the same `(sql, business_context)` twice
is NOT idempotent.  At the concrete input `"SELECT * FROM customers"` with a
compliant business result, the first call returns `is_valid = true` with a
formatted validation block and a `query_execution` entry; the second call is
served from the cache and returns `is_valid = false` (it reads the missing
`"syntax_valid"` key of the RAW cached results dictionary), an extra
`cached: true` entry, no `query_execution`, and a raw `validation` payload —
so the two responses differ. -/
theorem claim_C5_code_divergence :
    (generateSqlValidate (strL "SELECT * FROM customers") []
        (RVal.asDict (some true) none) (RVal.asBool true) []).1.is_valid = true ∧
    ((generateSqlValidate (strL "SELECT * FROM customers") []
        (RVal.asDict (some true) none) (RVal.asBool true)
        (generateSqlValidate (strL "SELECT * FROM customers") []
          (RVal.asDict (some true) none) (RVal.asBool true) []).2).1).is_valid = false ∧
    (generateSqlValidate (strL "SELECT * FROM customers") []
        (RVal.asDict (some true) none) (RVal.asBool true) []).1.cached = none ∧
    ((generateSqlValidate (strL "SELECT * FROM customers") []
        (RVal.asDict (some true) none) (RVal.asBool true)
        (generateSqlValidate (strL "SELECT * FROM customers") []
          (RVal.asDict (some true) none) (RVal.asBool true) []).2).1).cached
      = some true ∧
    (generateSqlValidate (strL "SELECT * FROM customers") []
        (RVal.asDict (some true) none) (RVal.asBool true) []).1.query_execution
      = some (RVal.asBool true) ∧
    ((generateSqlValidate (strL "SELECT * FROM customers") []
        (RVal.asDict (some true) none) (RVal.asBool true)
        (generateSqlValidate (strL "SELECT * FROM customers") []
          (RVal.asDict (some true) none) (RVal.asBool true) []).2).1).query_execution
      = none ∧
    ((generateSqlValidate (strL "SELECT * FROM customers") []
        (RVal.asDict (some true) none) (RVal.asBool true)
        (generateSqlValidate (strL "SELECT * FROM customers") []
          (RVal.asDict (some true) none) (RVal.asBool true) []).2).1)
      ≠ (generateSqlValidate (strL "SELECT * FROM customers") []
        (RVal.asDict (some true) none) (RVal.asBool true) []).1 := by
  decide

/-- Claim C7 counterexample: the complexity score does NOT use the absolute
paren imbalance — on the one-character query `")"` the source computes
`(0 - 1) * 2 = -2` while the claimed formula gives `+2`. -/
theorem claim_C7_counterexample :
    calculateComplexityScore (strL ")") ≠ specComplexityScoreAbs (strL ")") := by
  decide

/-- Claim C7 (amended): the complexity score is the documented weighted sum
of case-insensitive substring counts with `2 * (count '(' - count ')')`, the
SIGNED paren difference; whenever the query does not over-close parentheses
this agrees with the claimed absolute-value formula. -/
theorem claim_C7_amended (q : List Char) :
    calculateComplexityScore q =
      (countOccs (strL "join") (lowerL q) : ℤ) * 5 +
      (countOccs (strL "select") (lowerL q) : ℤ) * 2 +
      (countOccs (strL "where") (lowerL q) : ℤ) * 3 +
      (countOccs (strL "group by") (lowerL q) : ℤ) * 4 +
      (countOccs (strL "order by") (lowerL q) : ℤ) * 3 +
      (countOccs (strL "having") (lowerL q) : ℤ) * 4 +
      (countOccs (strL "union") (lowerL q) : ℤ) * 6 +
      (countOccs (strL "subquery") (lowerL q) : ℤ) * 5 +
      ((q.count '(' : ℤ) - (q.count ')' : ℤ)) * 2 ∧
    (q.count ')' ≤ q.count '(' →
      calculateComplexityScore q = specComplexityScoreAbs q) := by
  refine ⟨rfl, fun h => ?_⟩
  have h2 : (0 : ℤ) ≤ (q.count '(' : ℤ) - (q.count ')' : ℤ) := by omega
  simp only [calculateComplexityScore, specComplexityScoreAbs,
    Int.natAbs_of_nonneg h2]

/-- Witness for the amended C7 claim at the balanced query `"()"`. -/
theorem claim_C7_witness :
    calculateComplexityScore (strL "()") = specComplexityScoreAbs (strL "()") :=
  (claim_C7_amended (strL "()")).2 (by decide)

/-- Claim C8 counterexample: two distinct concepts both owned by the single
entity `customers` — the source reports `entities_with_concepts = 2` (the
number of distinct matched concept NAMES) while the claimed count of
distinct concept-owning entities is 1. -/
theorem claim_C8_counterexample :
    (gatherBusinessContext [strL "customers"] [c8ConceptA, c8ConceptB] c8Matched
        (fun _ => [])).entity_coverage.entities_with_concepts = 2 ∧
    specEntitiesWithConcepts c8Matched = 1 := by
  decide

/-- Claim C8 (amended): for a non-empty entity list and non-empty concept
list, `gather_business_context` reports `total_entities` equal to the number
of applicable entities and `entities_with_concepts` equal to the number of
DISTINCT NAMES of the matched concepts. -/
theorem claim_C8_amended (applicable : List (List Char))
    (concepts : List BusinessConcept) (matched : List (BusinessConcept × ℚ))
    (examplesOf : BusinessConcept → List ((List Char × List Char) × ℚ))
    (h1 : applicable ≠ []) (h2 : concepts ≠ []) :
    (gatherBusinessContext applicable concepts matched examplesOf).entity_coverage =
      { total_entities := applicable.length
        entities_with_concepts := (matched.map (fun p => p.1.name)).dedup.length } := by
  unfold gatherBusinessContext
  rw [if_neg (by simpa [List.isEmpty_iff] using h1),
    if_neg (by simpa [List.isEmpty_iff] using h2)]

/-- Witness for the amended C8 claim at the counterexample inputs. -/
theorem claim_C8_witness :
    (gatherBusinessContext [strL "customers"] [c8ConceptA, c8ConceptB] c8Matched
        (fun _ => [])).entity_coverage =
      { total_entities := [strL "customers"].length
        entities_with_concepts := (c8Matched.map (fun p => p.1.name)).dedup.length } :=
  claim_C8_amended [strL "customers"] [c8ConceptA, c8ConceptB] c8Matched
    (fun _ => []) (by decide) (by decide)

/-- `infixB` agrees with the infix relation. -/
theorem infixB_iff (n : List Char) : ∀ h : List Char, infixB n h = true ↔ n <:+: h := by
  intro h
  induction h with
  | nil => simp [infixB, List.isEmpty_iff, List.infix_nil]
  | cons c t ih =>
    simp [infixB, Bool.or_eq_true, List.isPrefixOf_iff_prefix, ih,
      List.infix_cons_iff]

/-- Upper-casing a character never yields an ASCII lower-case letter. -/
theorem toUpper_not_ascii_lower (c : Char) :
    ¬(97 ≤ (Char.toUpper c).toNat ∧ (Char.toUpper c).toNat ≤ 122) := by
  show ¬(97 ≤ (Char.toUpper c).toNat ∧ (Char.toUpper c).toNat ≤ 122)
  unfold Char.toUpper
  by_cases h : c.toNat ≥ 97 ∧ c.toNat ≤ 122
  · rw [if_pos h]
    obtain ⟨h1, h2⟩ := h
    generalize c.toNat = n at h1 h2
    interval_cases n <;> decide
  · rw [if_neg h]
    omega

/-- A pattern containing an ASCII lower-case letter can never occur inside an
upper-cased query: the scan `pattern in query.upper()` is dead code for every
such pattern. -/
theorem no_lower_infix_upper (p : List Char) (x : Char) (hx : x ∈ p)
    (h1 : 97 ≤ x.toNat) (h2 : x.toNat ≤ 122) (q : List Char) :
    infixB p (upperL q) = false := by
  cases hb : infixB p (upperL q) with
  | false => rfl
  | true =>
    exfalso
    have hinf := (infixB_iff p (upperL q)).1 hb
    have hxq : x ∈ upperL q := hinf.subset hx
    rw [upperL, List.mem_map] at hxq
    obtain ⟨d, _, hd⟩ := hxq
    exact toUpper_not_ascii_lower d (by rw [hd]; exact ⟨h1, h2⟩)

/-- The `risks` list of `validate_security` is empty for EVERY query: all the
injection-risk, dynamic-SQL and system-table scans compare lower-case
pattern text against the upper-cased query. -/
theorem validateSecurity_risks_nil (q : List Char) :
    (validateSecurity q).risks = [] := by
  have hinj : injectionPatterns.filter (fun p => infixB p (upperL q)) = [] := by
    rw [List.filter_eq_nil_iff]
    intro p hp
    simp only [Bool.not_eq_true]
    fin_cases hp
    · exact no_lower_infix_upper (strL "exec(") 'e' (by decide) (by decide) (by decide) q
    · exact no_lower_infix_upper (strL "execute(") 'e' (by decide) (by decide) (by decide) q
    · exact no_lower_infix_upper (strL "sp_") 's' (by decide) (by decide) (by decide) q
    · exact no_lower_infix_upper (strL "xp_") 'x' (by decide) (by decide) (by decide) q
    · exact no_lower_infix_upper (strL "openrowset") 'o' (by decide) (by decide) (by decide) q
    · exact no_lower_infix_upper (strL "opendatasource") 'o' (by decide) (by decide) (by decide) q
  have hsys : systemTablePrefixes.filter (fun p => infixB p (upperL q)) = [] := by
    rw [List.filter_eq_nil_iff]
    intro p hp
    simp only [Bool.not_eq_true]
    fin_cases hp
    · exact no_lower_infix_upper (strL "sys.") 's' (by decide) (by decide) (by decide) q
    · exact no_lower_infix_upper (strL "information_schema.") 'i' (by decide) (by decide) (by decide) q
    · exact no_lower_infix_upper (strL "master.") 'm' (by decide) (by decide) (by decide) q
    · exact no_lower_infix_upper (strL "tempdb.") 't' (by decide) (by decide) (by decide) q
  have hd1 : infixB (strL "exec") (upperL q) = false :=
    no_lower_infix_upper _ 'e' (by decide) (by decide) (by decide) q
  have hd2 : infixB (strL "execute") (upperL q) = false :=
    no_lower_infix_upper _ 'e' (by decide) (by decide) (by decide) q
  simp [validateSecurity, hinj, hsys, hd1, hd2]

/-- Claim C2 (code bug): the forbidden-keyword half of the claim holds (the
two spec examples are reproduced below), but the risks half fails — the
`risks` list is empty for EVERY query, because the injection-risk and
system-table patterns are written in lower case and searched inside the
upper-cased query.  At the failing input `"SELECT * FROM sys.users"` the
claim requires a recorded system-table risk, yet the source returns
`valid = true` with no risks at all. -/
theorem claim_C2_code_evaluation :
    (∀ q : List Char, (validateSecurity q).risks = []) ∧
    (validateSecurity (strL "SELECT * FROM sys.users")).risks = [] ∧
    (validateSecurity (strL "SELECT * FROM sys.users")).valid = true ∧
    (validateSecurity (strL "select exec(1) from t")).risks = [] ∧
    (validateSecurity (strL "DROP TABLE x")).valid = false ∧
    (validateSecurity (strL "DROP TABLE x")).forbidden_operations = [strL "DROP"] ∧
    (validateSecurity (strL "drop table x")).valid = false ∧
    (validateSecurity (strL "SELECT * FROM x")).valid = true ∧
    (validateSecurity (strL "SELECT * FROM x")).forbidden_operations = [] :=
  ⟨validateSecurity_risks_nil, by decide, by decide, by decide, by decide,
    by decide, by decide, by decide, by decide⟩

/-- Membership in the set-insertion helper. -/
theorem mem_setAdd {acc : List (List Char)} {e x : List Char} :
    x ∈ setAdd acc e ↔ x ∈ acc ∨ x = e := by
  unfold setAdd
  by_cases h : e ∈ acc
  · rw [if_pos h]
    constructor
    · exact Or.inl
    · rintro (hx | rfl)
      · exact hx
      · exact h
  · rw [if_neg h]
    simp

/-- Membership characterisation of the inner (per-part) fold of
`requiredEntities`. -/
theorem innerFold_mem (x : List Char) (parts : List (List Char)) :
    ∀ acc : List (List Char),
    (x ∈ parts.foldl
        (fun acc2 part =>
          if '.' ∈ part then setAdd acc2 (stripL (part.takeWhile (fun c => c != '.')))
          else acc2) acc) ↔
      x ∈ acc ∨ ∃ part ∈ parts, '.' ∈ part ∧
        x = stripL (part.takeWhile (fun c => c != '.')) := by
  induction parts with
  | nil => simp
  | cons p ps ih =>
    intro acc
    by_cases hp : '.' ∈ p
    · simp only [List.foldl_cons, if_pos hp, ih, mem_setAdd, List.mem_cons]
      constructor
      · rintro ((hx | rfl) | ⟨part, hm, hd, hx⟩)
        · exact Or.inl hx
        · exact Or.inr ⟨p, Or.inl rfl, hp, rfl⟩
        · exact Or.inr ⟨part, Or.inr hm, hd, hx⟩
      · rintro (hx | ⟨part, hm | hm, hd, hx⟩)
        · exact Or.inl (Or.inl hx)
        · rw [hm] at hd hx
          exact Or.inl (Or.inr hx)
        · exact Or.inr ⟨part, hm, hd, hx⟩
    · simp only [List.foldl_cons, if_neg hp, ih, List.mem_cons]
      constructor
      · rintro (hx | ⟨part, hm, hd, hx⟩)
        · exact Or.inl hx
        · exact Or.inr ⟨part, Or.inr hm, hd, hx⟩
      · rintro (hx | ⟨part, hm | hm, hd, hx⟩)
        · exact Or.inl hx
        · rw [hm] at hd
          exact absurd hd hp
        · exact Or.inr ⟨part, hm, hd, hx⟩

/-- Membership characterisation of the qualifiers one join contributes. -/
theorem mem_reqEntitiesOfJoin {x join : List Char} :
    x ∈ reqEntitiesOfJoin join ↔
      ('=' ∈ lowerL join ∧ ∃ part ∈ (lowerL join).splitOn '=', '.' ∈ part ∧
        x = stripL (part.takeWhile (fun c => c != '.'))) := by
  unfold reqEntitiesOfJoin
  by_cases h : '=' ∈ lowerL join
  · rw [if_pos h]
    simp only [List.mem_filterMap, h, true_and]
    constructor
    · rintro ⟨part, hm, hsome⟩
      by_cases hd : '.' ∈ part
      · rw [if_pos hd] at hsome
        exact ⟨part, hm, hd, (Option.some_inj.1 hsome).symm⟩
      · rw [if_neg hd] at hsome
        exact absurd hsome (by simp)
    · rintro ⟨part, hm, hd, rfl⟩
      exact ⟨part, hm, by rw [if_pos hd]⟩
  · rw [if_neg h]
    simp [h]

/-- Membership characterisation of the outer (per-join) fold of
`requiredEntities`. -/
theorem requiredEntities_mem (x : List Char) (joins : List (List Char)) :
    x ∈ requiredEntities joins ↔ ∃ j ∈ joins, x ∈ reqEntitiesOfJoin j := by
  have general : ∀ (js : List (List Char)) (acc : List (List Char)),
      (x ∈ js.foldl
          (fun acc join =>
            let jl := lowerL join
            if '=' ∈ jl then
              (jl.splitOn '=').foldl
                (fun acc2 part =>
                  if '.' ∈ part then
                    setAdd acc2 (stripL (part.takeWhile (fun c => c != '.')))
                  else acc2)
                acc
            else acc) acc) ↔
        x ∈ acc ∨ ∃ j ∈ js, x ∈ reqEntitiesOfJoin j := by
    intro js
    induction js with
    | nil => simp
    | cons j rest ih =>
      intro acc
      by_cases hj : '=' ∈ lowerL j
      · simp only [List.foldl_cons, if_pos hj, ih, innerFold_mem, List.mem_cons]
        constructor
        · rintro ((hx | hpart) | ⟨j2, hm, hx⟩)
          · exact Or.inl hx
          · exact Or.inr ⟨j, Or.inl rfl, mem_reqEntitiesOfJoin.2 ⟨hj, hpart⟩⟩
          · exact Or.inr ⟨j2, Or.inr hm, hx⟩
        · rintro (hx | ⟨j2, hm | hm, hx⟩)
          · exact Or.inl (Or.inl hx)
          · rw [hm] at hx
            exact Or.inl (Or.inr (mem_reqEntitiesOfJoin.1 hx).2)
          · exact Or.inr ⟨j2, hm, hx⟩
      · simp only [List.foldl_cons, if_neg hj, ih, List.mem_cons]
        constructor
        · rintro (hx | ⟨j2, hm, hx⟩)
          · exact Or.inl hx
          · exact Or.inr ⟨j2, Or.inr hm, hx⟩
        · rintro (hx | ⟨j2, hm | hm, hx⟩)
          · exact Or.inl hx
          · rw [hm] at hx
            exact absurd (mem_reqEntitiesOfJoin.1 hx).1 hj
          · exact Or.inr ⟨j2, hm, hx⟩
  rw [requiredEntities, general]
  simp

/-- Claim C4: the join validator collects, as required entities, every
lower-cased stripped table qualifier preceding the first `.` on each
`=`-separated side of each join string (third conjunct); `valid` holds
exactly when every required entity is available, `missing_entities` is
exactly the shortfall, and each individual join is classified `satisfied`
exactly when EVERY required entity across ALL joins is available (otherwise
`unsatisfied`); the spec's two concrete examples close the statement. -/
theorem claim_C4 (entities joins : List (List Char)) :
    ((validateRequiredJoins entities joins).valid = true ↔
      ∀ e ∈ requiredEntities joins, e ∈ entities) ∧
    (∀ e, e ∈ (validateRequiredJoins entities joins).missing_entities ↔
      (e ∈ requiredEntities joins ∧ e ∉ entities)) ∧
    (∀ e, e ∈ requiredEntities joins ↔ ∃ j ∈ joins, e ∈ reqEntitiesOfJoin j) ∧
    ((validateRequiredJoins entities joins).satisfied_joins =
      if ∀ e ∈ requiredEntities joins, e ∈ entities then joins else []) ∧
    ((validateRequiredJoins entities joins).unsatisfied_joins =
      if ∀ e ∈ requiredEntities joins, e ∈ entities then [] else joins) ∧
    (validateRequiredJoins [strL "a", strL "b"] [strL "a.id=b.a_id"]).valid = true ∧
    (validateRequiredJoins [strL "a", strL "b"] [strL "a.id=b.a_id"]).missing_entities
      = [] ∧
    (validateRequiredJoins [strL "a"] [strL "a.id=b.a_id"]).valid = false ∧
    (validateRequiredJoins [strL "a"] [strL "a.id=b.a_id"]).missing_entities
      = [strL "b"] := by
  refine ⟨?_, ?_, fun e => requiredEntities_mem e joins, ?_, ?_,
    by decide, by decide, by decide, by decide⟩
  · simp [validateRequiredJoins, List.isEmpty_iff, List.filter_eq_nil_iff]
  · intro e
    simp [validateRequiredJoins, List.mem_filter]
  · by_cases h : ∀ e ∈ requiredEntities joins, e ∈ entities
    · have hall : (requiredEntities joins).all (fun e => decide (e ∈ entities)) = true := by
        rw [List.all_eq_true]
        intro e he
        simpa using h e he
      simp [validateRequiredJoins, hall, if_pos h]
    · have hall : (requiredEntities joins).all (fun e => decide (e ∈ entities)) = false := by
        rw [Bool.eq_false_iff]
        intro hcontra
        rw [List.all_eq_true] at hcontra
        exact h (fun e he => by simpa using hcontra e he)
      simp [validateRequiredJoins, hall, if_neg h]
  · by_cases h : ∀ e ∈ requiredEntities joins, e ∈ entities
    · have hall : (requiredEntities joins).all (fun e => decide (e ∈ entities)) = true := by
        rw [List.all_eq_true]
        intro e he
        simpa using h e he
      simp [validateRequiredJoins, hall, if_pos h]
    · have hall : (requiredEntities joins).all (fun e => decide (e ∈ entities)) = false := by
        rw [Bool.eq_false_iff]
        intro hcontra
        rw [List.all_eq_true] at hcontra
        exact h (fun e he => by simpa using hcontra e he)
      simp [validateRequiredJoins, hall, if_neg h]

/-- Statement-level invalidity characterisation: a statement fails exactly
when its stripped text is empty, or carries neither a `SELECT` nor a `FROM`
keyword, or has unbalanced parentheses.  The trailing-semicolon check
contributes only to `warnings`, never to `valid`. -/
theorem stmt_valid_false_iff (s : List Char) :
    (validateStatementText s).valid = false ↔
      stripL s = [] ∨
      (infixB (strL "SELECT") (upperL (stripL s))
        || infixB (strL "FROM") (upperL (stripL s))) = false ∨
      ((stripL s).count '(' != (stripL s).count ')') = true := by
  by_cases he : stripL s = []
  · simp [validateStatementText, he]
  · have heB : (stripL s).isEmpty = false := by
      rw [Bool.eq_false_iff]
      simpa [List.isEmpty_iff] using he
    simp only [validateStatementText, heB, Bool.false_eq_true, if_false, he, false_or]
    cases h1 : (infixB (strL "SELECT") (upperL (stripL s))
        || infixB (strL "FROM") (upperL (stripL s))) <;>
      cases h2 : ((stripL s).count '(' != (stripL s).count ')') <;>
        simp [h1, h2]

/-- The statement fold of `validate_syntax` accumulates `valid` as the
conjunction over the statement list. -/
theorem foldCombine_valid (stmts : List (List Char)) :
    ∀ init : ParseCheckResult,
    (stmts.foldl
        (fun acc s =>
          let r := validateStatementText s
          { valid := acc.valid && r.valid
            errors := if !r.valid then acc.errors ++ r.errors else acc.errors
            warnings := acc.warnings ++ r.warnings }) init).valid =
      (init.valid && stmts.all (fun s => (validateStatementText s).valid)) := by
  induction stmts with
  | nil => intro init; simp
  | cons s rest ih =>
    intro init
    rw [List.foldl_cons, ih]
    simp [List.all_cons, Bool.and_assoc]

/-- The overall `valid` flag of `validate_syntax`: non-empty statement list
and every statement valid. -/
theorem validateQueryText_valid_eq (q : List Char) :
    (validateQueryText q).valid =
      (!(splitStmts q).isEmpty &&
        (splitStmts q).all (fun s => (validateStatementText s).valid)) := by
  unfold validateQueryText
  cases hs : splitStmts q with
  | nil => rfl
  | cons s rest =>
    refine Eq.trans
      (foldCombine_valid (s :: rest) { valid := true, errors := [], warnings := [] }) ?_
    simp

/-- Claim C6 counterexample: the source requires EITHER `SELECT` or `FROM`,
not the pair — the query `"FROM t"` contains no `SELECT` (hence no
SELECT/FROM pair), yet `validate_syntax` accepts it. -/
theorem claim_C6_counterexample :
    (validateQueryText (strL "FROM t")).valid = true ∧
    infixB (strL "SELECT") (upperL (stripL (strL "FROM t"))) = false := by
  decide

/-- Claim C6 (amended): `validate_syntax` returns `valid = false` exactly
when the parsed statement list is empty, or some statement's stripped text
is empty, carries NEITHER a `SELECT` NOR a `FROM` keyword, or has unbalanced
parentheses; a trailing semicolon never invalidates (it is absent from the
characterisation, and the `";"`-terminated example below stays valid with a
semicolon warning); the empty query reports the `"Empty query"` error and
`"SELECT * FROM customers"` is valid. -/
theorem claim_C6_amended (q : List Char) :
    ((validateQueryText q).valid = false ↔
      splitStmts q = [] ∨ ∃ s ∈ splitStmts q,
        stripL s = [] ∨
        (infixB (strL "SELECT") (upperL (stripL s))
          || infixB (strL "FROM") (upperL (stripL s))) = false ∨
        ((stripL s).count '(' != (stripL s).count ')') = true) ∧
    (validateQueryText (strL "")).valid = false ∧
    (validateQueryText (strL "")).errors = [strL "Empty query"] ∧
    (validateQueryText (strL "SELECT * FROM customers")).valid = true ∧
    (validateQueryText (strL "SELECT * FROM customers;")).valid = true ∧
    (validateQueryText (strL "SELECT * FROM customers;")).warnings
      = [strL "Semicolon at end of statement"] ∧
    (validateQueryText (strL "SELECT (a FROM t")).valid = false := by
  refine ⟨?_, by decide, by decide, by decide, by decide, by decide, by decide⟩
  rw [validateQueryText_valid_eq, Bool.and_eq_false_iff]
  simp only [Bool.not_eq_false', List.isEmpty_iff, List.all_eq_false,
    Bool.not_eq_true, stmt_valid_false_iff]

/-- Erasing by the successive keys only ever shrinks the cache. -/
theorem foldl_eraseP_length_le {V : Type} (ks : List (List Char)) :
    ∀ acc : List (List Char × V),
    (ks.foldl (fun a k => a.eraseP (fun p => p.1 == k)) acc).length ≤ acc.length := by
  induction ks with
  | nil => intro acc; simp
  | cons k rest ih =>
    intro acc
    rw [List.foldl_cons]
    exact le_trans (ih _) (List.length_eraseP_le acc)

/-- Evicting the `n` oldest keys is exactly dropping the `n` oldest entries:
the first deleted key is the head entry's own key, and so on inductively. -/
theorem evictOldest_eq_drop {V : Type} (n : Nat) :
    ∀ cache : List (List Char × V), evictOldest n cache = cache.drop n := by
  induction n with
  | zero => intro cache; simp [evictOldest]
  | succ m ih =>
    intro cache
    cases cache with
    | nil => simp [evictOldest]
    | cons p rest =>
      unfold evictOldest
      rw [List.map_cons, List.take_succ_cons, List.foldl_cons,
        List.eraseP_cons_of_pos (by simp)]
      exact ih rest

/-- An insertion grows the cache by at most one entry. -/
theorem cacheInsert_length_le {V : Type} (cache : List (List Char × V))
    (k : List Char) (v : V) :
    (cacheInsert cache k v).length ≤ cache.length + 1 := by
  unfold cacheInsert
  by_cases h : k ∈ cache.map Prod.fst
  · rw [if_pos h, List.length_map]
    omega
  · rw [if_neg h, List.length_append]
    simp

/-- One cache write preserves the size bound. -/
theorem cacheResult_length_le {V : Type} (limit : Nat)
    (cache : List (List Char × V)) (k : List Char) (v : V)
    (h : cache.length ≤ limit) :
    (cacheResult limit cache k v).length ≤ limit := by
  unfold cacheResult
  by_cases hlt : limit < (cacheInsert cache k v).length
  · rw [if_pos hlt, evictOldest_eq_drop, List.length_drop]
    have := cacheInsert_length_le cache k v
    omega
  · rw [if_neg hlt]
    omega

/-- Claim C9: starting from any state within the configured bound, every
state along a sequence of cache writes (both `CachingMixin._cache_result`
and, via `limit := 100`, the entity-recognition result cache) stays within
the bound; moreover the eviction step removes exactly the oldest entries
(it equals dropping the front of the insertion-ordered map). -/
theorem claim_C9 {V : Type} (limit : Nat) (ops : List (List Char × V))
    (init : List (List Char × V)) (hinit : init.length ≤ limit) :
    (∀ s ∈ List.scanl (fun c kv => cacheResult limit c kv.1 kv.2) init ops,
      s.length ≤ limit) ∧
    (∀ (n : Nat) (c : List (List Char × V)), evictOldest n c = c.drop n) := by
  refine ⟨?_, fun n c => evictOldest_eq_drop n c⟩
  induction ops generalizing init with
  | nil =>
    intro s hs
    rw [List.scanl_nil] at hs
    simp only [List.mem_singleton] at hs
    exact hs ▸ hinit
  | cons op rest ih =>
    intro s hs
    rw [List.scanl_cons] at hs
    rcases List.mem_append.1 hs with hs1 | hs2
    · simp only [List.mem_singleton] at hs1
      exact hs1 ▸ hinit
    · exact ih _ (cacheResult_length_le limit init op.1 op.2 hinit) s hs2

/-- Witness for C9: with limit 1, after inserting two entries the trace's
final state is within the bound (the theorem applied at a concrete run). -/
theorem claim_C9_witness :
    (cacheResult 1 (cacheResult 1 ([] : List (List Char × Nat)) (strL "a") 0)
      (strL "b") 1).length ≤ 1 :=
  (claim_C9 1 [(strL "a", 0), (strL "b", 1)] [] (by decide)).1 _ (by decide)

/-- Rounding preserves nonnegativity. -/
theorem pyRound3_nonneg {x : ℚ} (h : 0 ≤ x) : 0 ≤ pyRound3 x := by
  unfold pyRound3
  have h1 : (0 : ℤ) ≤ ⌊x * 1000 + 1/2⌋ := by
    apply Int.le_floor.2
    push_cast
    nlinarith
  have h2 : (0 : ℚ) ≤ (⌊x * 1000 + 1/2⌋ : ℚ) := by exact_mod_cast h1
  positivity

/-- Rounding preserves the unit upper bound. -/
theorem pyRound3_le_one {x : ℚ} (h : x ≤ 1) : pyRound3 x ≤ 1 := by
  unfold pyRound3
  rw [div_le_one (by norm_num)]
  have h1 : ⌊x * 1000 + 1/2⌋ ≤ ⌊(1000 : ℚ) + 1/2⌋ := Int.floor_le_floor (by nlinarith)
  have h2 : ⌊(1000 : ℚ) + 1/2⌋ = 1000 := by
    rw [show ((1000 : ℚ) + 1/2) = 1/2 + ((1000 : ℤ) : ℚ) by push_cast; ring,
      Int.floor_add_int]
    norm_num [Int.floor_eq_zero_iff, Set.mem_Ico]
  exact_mod_cast le_trans h1 (le_of_eq h2)

/-- Rounding zero gives zero. -/
theorem pyRound3_zero : pyRound3 0 = 0 := by
  unfold pyRound3
  norm_num [Int.floor_eq_zero_iff, Set.mem_Ico]

/-- The descending stable sort really is sorted descending by score. -/
theorem sortByScoreDesc_pairwise (l : List EntityAnalysis) :
    (sortByScoreDesc l).Pairwise
      (fun a b => b.relevance_score ≤ a.relevance_score) := by
  have h := @List.sorted_mergeSort EntityAnalysis
    (fun a b : EntityAnalysis => decide (b.relevance_score ≤ a.relevance_score))
    (fun a b c hab hbc => by
      simp only [decide_eq_true_eq] at *
      exact le_trans hbc hab)
    (fun a b => by
      simp only [Bool.or_eq_true, decide_eq_true_eq]
      exact le_total b.relevance_score a.relevance_score)
    l
  exact h.imp (fun hab => by simpa using hab)

/-- Claim C3: the ranking path of `recognize_entities_optimized` satisfies
the documented contract (see `rankingSpec`): weighted scoring formula per
candidate, descending sort, strict 0.3 threshold, `max_entities` cap, and
confidence `min(mean * 1.2, 1)` (0 when none kept) always within [0, 1]. -/
theorem claim_C3 (q : List Char) (ui : Option (List Char)) (tables : List Candidate)
    (m : Nat) (hq : stripL q ≠ []) : rankingSpec q ui tables m := by
  have hqB : (stripL q).isEmpty = false := by
    rw [Bool.eq_false_iff]
    simpa [List.isEmpty_iff] using hq
  simp only [rankingSpec]
  by_cases ht : tables = []
  · subst ht
    have hr : recognizeEntitiesCore q ui [] m
        = emptyEntityResult (strL "No relevant tables found for: " ++ q) := by
      simp [recognizeEntitiesCore, hqB]
    rw [hr]
    refine ⟨by simp [emptyEntityResult], by simp [emptyEntityResult],
      by simp [emptyEntityResult], by simp [emptyEntityResult],
      fun _ => rfl, fun h => absurd rfl h,
      by simp [emptyEntityResult], by norm_num [emptyEntityResult]⟩
  · have htB : tables.isEmpty = false := by
      rw [Bool.eq_false_iff]
      simpa [List.isEmpty_iff] using ht
    have hr_app : (recognizeEntitiesCore q ui tables m).applicable_entities =
        ((sortByScoreDesc ((tables.take (m*2)).map
            (mkEntityAnalysis (effectiveIntent q ui)))).filter
          (fun e => decide ((3 : ℚ)/10 < e.relevance_score))).take m := by
      simp only [recognizeEntitiesCore, hqB, htB, Bool.false_eq_true, if_false]
    have hr_conf : (recognizeEntitiesCore q ui tables m).confidence =
        pyRound3 (if (((sortByScoreDesc ((tables.take (m*2)).map
              (mkEntityAnalysis (effectiveIntent q ui)))).filter
              (fun e => decide ((3 : ℚ)/10 < e.relevance_score))).take m).isEmpty
          then 0
          else min (((((sortByScoreDesc ((tables.take (m*2)).map
              (mkEntityAnalysis (effectiveIntent q ui)))).filter
              (fun e => decide ((3 : ℚ)/10 < e.relevance_score))).take m).map
              (fun e => e.relevance_score)).sum /
              (((((sortByScoreDesc ((tables.take (m*2)).map
              (mkEntityAnalysis (effectiveIntent q ui)))).filter
              (fun e => decide ((3 : ℚ)/10 < e.relevance_score))).take m).length : ℚ))
              * (6/5)) 1) := by
      simp only [recognizeEntitiesCore, hqB, htB, Bool.false_eq_true, if_false]
    have hthresh : ∀ e ∈ (recognizeEntitiesCore q ui tables m).applicable_entities,
        (3 : ℚ)/10 < e.relevance_score := by
      intro e he
      rw [hr_app] at he
      have := (List.mem_filter.1 (List.mem_of_mem_take he)).2
      exact of_decide_eq_true this
    refine ⟨?_, hthresh, ?_, ?_, ?_, ?_, ?_, ?_⟩
    · rw [hr_app]
      exact List.Pairwise.sublist
        ((List.take_sublist _ _).trans (List.filter_sublist _))
        (sortByScoreDesc_pairwise _)
    · rw [hr_app]
      exact List.length_take_le m _
    · intro e he
      rw [hr_app] at he
      have he2 : e ∈ sortByScoreDesc ((tables.take (m*2)).map
          (mkEntityAnalysis (effectiveIntent q ui))) :=
        (List.mem_filter.1 (List.mem_of_mem_take he)).1
      have he3 : e ∈ (tables.take (m*2)).map (mkEntityAnalysis (effectiveIntent q ui)) :=
        ((List.mergeSort_perm _ _).mem_iff).1 he2
      obtain ⟨c, hc, hce⟩ := List.mem_map.1 he3
      exact ⟨c, List.mem_of_mem_take hc, hce.symm, by rw [← hce]; rfl⟩
    · intro h0
      rw [hr_app] at h0
      rw [hr_conf, if_pos (List.isEmpty_iff.2 h0)]
      exact pyRound3_zero
    · intro h0
      rw [hr_app] at h0
      have h0B : (((sortByScoreDesc ((tables.take (m*2)).map
          (mkEntityAnalysis (effectiveIntent q ui)))).filter
          (fun e => decide ((3 : ℚ)/10 < e.relevance_score))).take m).isEmpty = false := by
        rw [Bool.eq_false_iff]
        simpa [List.isEmpty_iff] using h0
      rw [hr_conf, h0B, if_neg (show ¬(false = true) by simp), hr_app]
    · by_cases h0 : (recognizeEntitiesCore q ui tables m).applicable_entities = []
      · rw [hr_app] at h0
        rw [hr_conf, if_pos (List.isEmpty_iff.2 h0), pyRound3_zero]
      · rw [hr_app] at h0
        have h0B : (((sortByScoreDesc ((tables.take (m*2)).map
            (mkEntityAnalysis (effectiveIntent q ui)))).filter
            (fun e => decide ((3 : ℚ)/10 < e.relevance_score))).take m).isEmpty = false := by
          rw [Bool.eq_false_iff]
          simpa [List.isEmpty_iff] using h0
        rw [hr_conf, h0B, if_neg (show ¬(false = true) by simp)]
        apply pyRound3_nonneg
        have hsum : (0 : ℚ) ≤ ((((sortByScoreDesc ((tables.take (m*2)).map
            (mkEntityAnalysis (effectiveIntent q ui)))).filter
            (fun e => decide ((3 : ℚ)/10 < e.relevance_score))).take m).map
            (fun e => e.relevance_score)).sum := by
          apply List.sum_nonneg
          intro x hx
          obtain ⟨e, he, hex⟩ := List.mem_map.1 hx
          have := of_decide_eq_true (List.mem_filter.1 (List.mem_of_mem_take he)).2
          rw [← hex]
          linarith
        have hlen : (0 : ℚ) ≤ ((((sortByScoreDesc ((tables.take (m*2)).map
            (mkEntityAnalysis (effectiveIntent q ui)))).filter
            (fun e => decide ((3 : ℚ)/10 < e.relevance_score))).take m).length : ℚ) := by
          positivity
        refine le_min (by positivity) (by norm_num)
    · by_cases h0 : (recognizeEntitiesCore q ui tables m).applicable_entities = []
      · rw [hr_app] at h0
        rw [hr_conf, if_pos (List.isEmpty_iff.2 h0), pyRound3_zero]
        norm_num
      · rw [hr_app] at h0
        have h0B : (((sortByScoreDesc ((tables.take (m*2)).map
            (mkEntityAnalysis (effectiveIntent q ui)))).filter
            (fun e => decide ((3 : ℚ)/10 < e.relevance_score))).take m).isEmpty = false := by
          rw [Bool.eq_false_iff]
          simpa [List.isEmpty_iff] using h0
        rw [hr_conf, h0B, if_neg (show ¬(false = true) by simp)]
        exact pyRound3_le_one (min_le_right _ 1)

/-- Witness for C3: the contract holds at a concrete query with one concrete
candidate. -/
theorem claim_C3_witness :
    rankingSpec (strL "customers") none
      [{ name := strL "customers", purpose := strL "All customer records",
         score := 9/10 }] 5 :=
  claim_C3 (strL "customers") none
    [{ name := strL "customers", purpose := strL "All customer records",
       score := 9/10 }] 5 (by decide)
